import Mathlib

/-!
Verification of the realtime relay backend.

Shallow embedding of `src/backend/src`:
* `AudioProcessor` (base64 audio codec)    — `audio_processor.py`
* `SessionManager` (session registry)      — `application/session_manager.py`
* `OpenAIRealtimeClient` (upstream client) — `realtime_client.py`
* client-message processing                — `application/websocket_handler.py`

Bytes are `Nat` values `< 256`; timestamps are integer seconds (`Int`);
Python dicts are association lists with first-match lookup and
replace-in-place assignment, mirroring insertion-ordered dict semantics.
-/

namespace Realtime

/-! ### Python-dict primitives -/

/-- `d.get(key)`: first entry whose key matches. -/
def dictGet {α : Type} : List (String × α) → String → Option α
  | [], _ => none
  | (k, v) :: rest, key => if k = key then some v else dictGet rest key

/-- `d[key] = v`: replace in place if the key is present, else append
(insertion-ordered dict assignment). -/
def dictInsert {α : Type} : List (String × α) → String → α → List (String × α)
  | [], key, v => [(key, v)]
  | (k, w) :: rest, key, v =>
      if k = key then (key, v) :: rest else (k, w) :: dictInsert rest key v

/-- `del d[key]`: drop every entry with the key (a dict holds it once). -/
def dictErase {α : Type} : List (String × α) → String → List (String × α)
  | [], _ => []
  | (k, w) :: rest, key =>
      if k = key then dictErase rest key else (k, w) :: dictErase rest key

/-- `key in d`. -/
def dictHasKey {α : Type} (d : List (String × α)) (key : String) : Bool :=
  (dictGet d key).isSome

@[simp] theorem dictGet_nil {α : Type} (key : String) :
    dictGet ([] : List (String × α)) key = none := rfl

@[simp] theorem dictGet_cons {α : Type} (k : String) (v : α) (rest : List (String × α))
    (key : String) :
    dictGet ((k, v) :: rest) key = if k = key then some v else dictGet rest key := rfl

theorem dictGet_dictInsert {α : Type} (d : List (String × α)) (key : String) (v : α)
    (key' : String) :
    dictGet (dictInsert d key v) key' = if key = key' then some v else dictGet d key' := by
  induction d with
  | nil => by_cases h : key = key' <;> simp [dictInsert, h]
  | cons hd tl ih =>
      obtain ⟨k, w⟩ := hd
      simp only [dictInsert]
      by_cases hk : k = key
      · subst hk
        by_cases h : k = key' <;> simp [h]
      · rw [if_neg hk]
        by_cases h : k = key'
        · subst h
          have hne : ¬key = k := fun e => hk e.symm
          simp [hne]
        · simp [h, ih]

theorem dictGet_dictErase {α : Type} (d : List (String × α)) (key key' : String) :
    dictGet (dictErase d key) key' = if key = key' then none else dictGet d key' := by
  induction d with
  | nil => by_cases h : key = key' <;> simp [dictErase, h]
  | cons hd tl ih =>
      obtain ⟨k, w⟩ := hd
      simp only [dictErase]
      by_cases hk : k = key
      · subst hk
        rw [if_pos rfl, ih]
        by_cases h : k = key' <;> simp [h]
      · rw [if_neg hk]
        by_cases h : k = key'
        · subst h
          have hne : ¬key = k := fun e => hk e.symm
          simp [hne, ih]
        · simp [h, ih]

/-! ### AudioProcessor — `audio_processor.py`

`encode_audio` is `base64.b64encode(audio_bytes).decode("utf-8")` for every
format branch; `decode_audio` is `base64.b64decode(audio_base64)`.  The
standard base64 alphabet and `=` padding are embedded at the byte level:
characters are their ASCII codes. -/

/-- ASCII codes of `A-Z a-z 0-9 + /`, the standard base64 alphabet. -/
def b64Alphabet : List Nat :=
  (List.range 26).map (fun i => 65 + i) ++
  (List.range 26).map (fun i => 97 + i) ++
  (List.range 10).map (fun i => 48 + i) ++ [43, 47]

/-- Sextet value (0..63) to alphabet character. -/
def b64EncChar (n : Nat) : Nat := b64Alphabet.getD n 0

/-- Alphabet character back to its sextet value. -/
def b64DecChar (c : Nat) : Nat := b64Alphabet.indexOf c

/-- ASCII code of the `=` padding character. -/
def b64Pad : Nat := 61

/-- `base64.b64encode`: 3-byte groups to 4 characters, the final short
group padded with `=`. -/
def b64encode : List Nat → List Nat
  | b0 :: b1 :: b2 :: rest =>
      b64EncChar (b0 / 4) :: b64EncChar ((b0 % 4) * 16 + b1 / 16) ::
      b64EncChar ((b1 % 16) * 4 + b2 / 64) :: b64EncChar (b2 % 64) :: b64encode rest
  | [b0, b1] =>
      [b64EncChar (b0 / 4), b64EncChar ((b0 % 4) * 16 + b1 / 16),
       b64EncChar ((b1 % 16) * 4), b64Pad]
  | [b0] =>
      [b64EncChar (b0 / 4), b64EncChar ((b0 % 4) * 16), b64Pad, b64Pad]
  | [] => []

/-- Reassemble bytes from sextets; a trailing group of 3 (resp. 2) sextets
carries 2 (resp. 1) bytes, per the `=`-padding convention. -/
def b64decodeSextets : List Nat → List Nat
  | c0 :: c1 :: c2 :: c3 :: rest =>
      (c0 * 4 + c1 / 16) :: ((c1 % 16) * 16 + c2 / 4) :: ((c2 % 4) * 64 + c3) ::
      b64decodeSextets rest
  | [c0, c1, c2] => [c0 * 4 + c1 / 16, (c1 % 16) * 16 + c2 / 4]
  | [c0, c1] => [c0 * 4 + c1 / 16]
  | _ => []

/-- `base64.b64decode`: characters outside the alphabet (including the `=`
padding) are discarded, the rest decoded as sextets. -/
def b64decode (s : List Nat) : List Nat :=
  b64decodeSextets ((s.filter (fun c => b64Alphabet.contains c)).map b64DecChar)

inductive AudioFormat where
  | pcm16
  | g711_ulaw
  | g711_alaw
  deriving DecidableEq

/-- `AudioProcessor.encode_audio`: base64-encode; PCM16 and the other
formats share the same byte-level path. -/
def encode_audio (audio_bytes : List Nat) (audio_format : AudioFormat := .pcm16) :
    List Nat :=
  match audio_format with
  | .pcm16 => b64encode audio_bytes
  | _ => b64encode audio_bytes

/-- `AudioProcessor.decode_audio`: base64-decode regardless of format. -/
def decode_audio (audio_base64 : List Nat) (_audio_format : AudioFormat := .pcm16) :
    List Nat :=
  b64decode audio_base64

theorem b64EncChar_mem (n : Nat) (h : n < 64) : b64EncChar n ∈ b64Alphabet := by
  revert n; decide

theorem b64DecChar_b64EncChar (n : Nat) (h : n < 64) : b64DecChar (b64EncChar n) = n := by
  revert n; decide

theorem b64Pad_not_mem : b64Pad ∉ b64Alphabet := by decide

theorem b64Alphabet_contains_enc (n : Nat) (h : n < 64) :
    b64Alphabet.contains (b64EncChar n) = true := by
  revert n; decide

theorem b64Alphabet_contains_pad : b64Alphabet.contains b64Pad = false := by decide

/-- Decoding inverts encoding on byte lists. -/
theorem b64decode_b64encode (b : List Nat) (hb : ∀ x ∈ b, x < 256) :
    b64decode (b64encode b) = b := by
  induction b using b64encode.induct with
  | case1 b0 b1 b2 rest ih =>
      have h0 : b0 < 256 := hb b0 (by simp)
      have h1 : b1 < 256 := hb b1 (by simp)
      have h2 : b2 < 256 := hb b2 (by simp)
      have s0 : b0 / 4 < 64 := by omega
      have s1 : (b0 % 4) * 16 + b1 / 16 < 64 := by omega
      have s2 : (b1 % 16) * 4 + b2 / 64 < 64 := by omega
      have s3 : b2 % 64 < 64 := by omega
      have ih' := ih (fun x hx => hb x (by simp [hx]))
      simp only [b64decode] at ih'
      simp only [b64encode, b64decode, List.filter_cons,
        b64Alphabet_contains_enc _ s0, b64Alphabet_contains_enc _ s1,
        b64Alphabet_contains_enc _ s2, b64Alphabet_contains_enc _ s3,
        if_true, List.map_cons,
        b64DecChar_b64EncChar _ s0, b64DecChar_b64EncChar _ s1,
        b64DecChar_b64EncChar _ s2, b64DecChar_b64EncChar _ s3,
        b64decodeSextets, ih', List.cons.injEq, and_true]
      omega
  | case2 b0 b1 =>
      have h0 : b0 < 256 := hb b0 (by simp)
      have h1 : b1 < 256 := hb b1 (by simp)
      have s0 : b0 / 4 < 64 := by omega
      have s1 : (b0 % 4) * 16 + b1 / 16 < 64 := by omega
      have s2 : (b1 % 16) * 4 < 64 := by omega
      simp only [b64encode, b64decode, List.filter_cons,
        b64Alphabet_contains_enc _ s0, b64Alphabet_contains_enc _ s1,
        b64Alphabet_contains_enc _ s2, b64Alphabet_contains_pad,
        if_true, Bool.false_eq_true, if_false, List.filter_nil, List.map_cons,
        List.map_nil,
        b64DecChar_b64EncChar _ s0, b64DecChar_b64EncChar _ s1,
        b64DecChar_b64EncChar _ s2,
        b64decodeSextets, List.cons.injEq, and_true]
      omega
  | case3 b0 =>
      have h0 : b0 < 256 := hb b0 (by simp)
      have s0 : b0 / 4 < 64 := by omega
      have s1 : (b0 % 4) * 16 < 64 := by omega
      simp only [b64encode, b64decode, List.filter_cons,
        b64Alphabet_contains_enc _ s0, b64Alphabet_contains_enc _ s1,
        b64Alphabet_contains_pad,
        if_true, Bool.false_eq_true, if_false, List.filter_nil, List.map_cons,
        List.map_nil,
        b64DecChar_b64EncChar _ s0, b64DecChar_b64EncChar _ s1,
        b64decodeSextets, List.cons.injEq, and_true]
      omega
  | case4 => rfl

/-! ### Session data model — `application/models.py`

Timestamps are integer seconds.  The free-form `dict[str, Any]` values in
`SessionConfig` (`turn_detection`, `input_audio_transcription`, `tools`)
are dictionaries of JSON literals; `0.5` and `0.8` are the rationals
`1/2` and `4/5`. -/

/-- A JSON literal inside a config dictionary. -/
inductive JLit where
  | str : String → JLit
  | int : Int → JLit
  | num : ℚ → JLit
  deriving DecidableEq

/-- `SessionConfig` dataclass with its field defaults. -/
structure SessionConfig where
  modalities : List String := ["text", "audio"]
  instructions : Option String := none
  voice : String := "alloy"
  input_audio_format : String := "pcm16"
  output_audio_format : String := "pcm16"
  input_audio_transcription : Option (List (String × JLit)) := none
  turn_detection : Option (List (String × JLit)) :=
    some [("type", .str "server_vad"), ("threshold", .num (1/2)),
          ("prefix_padding_ms", .int 300), ("silence_duration_ms", .int 200)]
  tools : List (List (String × JLit)) := []
  tool_choice : String := "auto"
  temperature : ℚ := 4/5
  max_response_output_tokens : Option Int := some 4096
  deriving DecidableEq

/-- `ClientSession` dataclass; the WebSocket handle is an opaque number. -/
structure ClientSession where
  session_id : String
  client_id : String
  websocket : Nat
  openai_session_id : Option String := none
  connected_at : Int
  config : SessionConfig := {}
  is_active : Bool := true
  conversation_id : Option String := none
  last_activity : Int
  deriving DecidableEq

/-! ### SessionManager — `application/session_manager.py`

The registry state is the pair of dicts `_sessions` and
`_client_to_session` plus the two timing knobs.  `uuid.uuid4()` and
`datetime.datetime.now()` are nondeterministic, so `create_session` and
the time-dependent operations take the fresh `session_id` / current time
as explicit arguments. -/

structure SessionManagerState where
  sessions : List (String × ClientSession) := []
  client_to_session : List (String × String) := []
  cleanup_interval : Int := 60
  session_timeout : Int := 300
  deriving DecidableEq

/-- The `ValueError` of `create_session`, named as in the spec. -/
inductive SessionError where
  | duplicateSession (client_id : String)
  deriving DecidableEq

/-- `SessionManager.create_session`: reject when the mapped session is
still active, otherwise store a fresh session and remap the client. -/
def create_session (m : SessionManagerState) (client_id : String) (websocket : Nat)
    (config : Option SessionConfig) (session_id : String) (now : Int) :
    Except SessionError (SessionManagerState × ClientSession) :=
  let duplicate :=
    match dictGet m.client_to_session client_id with
    | some existing_session_id =>
        match dictGet m.sessions existing_session_id with
        | some existing_session => existing_session.is_active
        | none => false
    | none => false
  if duplicate then
    .error (.duplicateSession client_id)
  else
    let session : ClientSession :=
      { session_id := session_id, client_id := client_id, websocket := websocket,
        connected_at := now, config := config.getD {}, is_active := true,
        last_activity := now }
    .ok ({ m with
            sessions := dictInsert m.sessions session_id session,
            client_to_session := dictInsert m.client_to_session client_id session_id },
         session)

/-- `SessionManager.get_session`. -/
def get_session (m : SessionManagerState) (session_id : String) : Option ClientSession :=
  dictGet m.sessions session_id

/-- `SessionManager.get_session_by_client_id`. -/
def get_session_by_client_id (m : SessionManagerState) (client_id : String) :
    Option ClientSession :=
  match dictGet m.client_to_session client_id with
  | some session_id => get_session m session_id
  | none => none

/-- A keyword-argument value of `update_session`
(`Union[str, bool, datetime.datetime, SessionConfig]`). -/
inductive UVal where
  | vStr : String → UVal
  | vBool : Bool → UVal
  | vTime : Int → UVal
  | vConfig : SessionConfig → UVal
  deriving DecidableEq

/-- The `allowed_fields` set of `update_session`. -/
def allowed_fields : List String :=
  ["openai_session_id", "config", "is_active", "conversation_id", "last_activity"]

/-- One `setattr(session, field, value)` guarded by
`field in allowed_fields and hasattr(session, field)`; every allowed field
is an attribute of the session, and the declared kwarg types pair each
field with its value shape. -/
def setField (s : ClientSession) (f : String) (v : UVal) : ClientSession :=
  if f ∈ allowed_fields then
    match f, v with
    | "openai_session_id", .vStr x => { s with openai_session_id := some x }
    | "config", .vConfig c => { s with config := c }
    | "is_active", .vBool b => { s with is_active := b }
    | "conversation_id", .vStr x => { s with conversation_id := some x }
    | "last_activity", .vTime t => { s with last_activity := t }
    | _, _ => s
  else s

/-- `SessionManager.update_session`: fold the kwargs over the session,
then refresh `last_activity` unless the caller supplied it. -/
def update_session (m : SessionManagerState) (session_id : String)
    (kwargs : List (String × UVal)) (now : Int) : SessionManagerState × Bool :=
  match dictGet m.sessions session_id with
  | none => (m, false)
  | some session =>
      let session := kwargs.foldl (fun s fv => setField s fv.1 fv.2) session
      let session :=
        if kwargs.any (fun fv => fv.1 == "last_activity") then session
        else { session with last_activity := now }
      ({ m with sessions := dictInsert m.sessions session_id session }, true)

/-- `SessionManager.update_last_activity`. -/
def update_last_activity (m : SessionManagerState) (session_id : String) (now : Int) :
    SessionManagerState × Bool :=
  update_session m session_id [("last_activity", .vTime now)] now

/-- `SessionManager.remove_session`: delete the record and, when present,
the `client_to_session` entry for the session's client. -/
def remove_session (m : SessionManagerState) (session_id : String) :
    SessionManagerState × Bool :=
  match dictGet m.sessions session_id with
  | none => (m, false)
  | some session =>
      let c2s :=
        if dictHasKey m.client_to_session session.client_id then
          dictErase m.client_to_session session.client_id
        else m.client_to_session
      ({ m with
          sessions := dictErase m.sessions session_id,
          client_to_session := c2s }, true)

/-- `SessionManager.deactivate_session`: clear `is_active`, keep the record. -/
def deactivate_session (m : SessionManagerState) (session_id : String) :
    SessionManagerState × Bool :=
  match dictGet m.sessions session_id with
  | none => (m, false)
  | some session =>
      ({ m with
          sessions := dictInsert m.sessions session_id { session with is_active := false } },
       true)

/-- The removal test of `cleanup_inactive_sessions`: an inactive session
expires past `_cleanup_interval`, an active one past `_session_timeout`,
both strictly. -/
def session_expired (m : SessionManagerState) (now : Int) (s : ClientSession) : Bool :=
  if s.is_active then decide (now - s.last_activity > m.session_timeout)
  else decide (now - s.last_activity > m.cleanup_interval)

/-- The body of the removal loop of `cleanup_inactive_sessions`:
`if self.remove_session(session_id): removed_count += 1`. -/
def remove_step (acc : SessionManagerState × Nat) (session_id : String) :
    SessionManagerState × Nat :=
  let r := remove_session acc.1 session_id
  (r.1, acc.2 + if r.2 then 1 else 0)

/-- `SessionManager.cleanup_inactive_sessions`: collect the expired
session ids from the snapshot, then remove them one by one, counting the
removals that succeeded. -/
def cleanup_inactive_sessions (m : SessionManagerState) (now : Int) :
    SessionManagerState × Nat :=
  ((m.sessions.filter (fun p => session_expired m now p.2)).map Prod.fst).foldl
    remove_step (m, 0)

/-- The registry operations of the spec's `SessionRegistry` contract that
run after creation: `get`, `getByClient`, `touch`, `update`, `deactivate`
and `sweep`, each as its state transformer (lookups leave the state as
is). -/
inductive RegistryOp where
  | get (session_id : String)
  | getByClient (client_id : String)
  | touch (session_id : String) (now : Int)
  | update (session_id : String) (kwargs : List (String × UVal)) (now : Int)
  | deactivate (session_id : String)
  | sweep (now : Int)

/-- The registry state after one operation. -/
def applyRegistryOp (m : SessionManagerState) : RegistryOp → SessionManagerState
  | .get _ => m
  | .getByClient _ => m
  | .touch session_id now => (update_last_activity m session_id now).1
  | .update session_id kwargs now => (update_session m session_id kwargs now).1
  | .deactivate session_id => (deactivate_session m session_id).1
  | .sweep now => (cleanup_inactive_sessions m now).1

/-! ### OpenAIRealtimeClient — `realtime_client.py`

Upstream commands are the JSON objects passed to `websocket.send`, kept
structured.  Message payloads are JSON values. -/

/-- A JSON value carried in a client message or upstream command. -/
inductive JVal where
  | str : String → JVal
  | int : Int → JVal
  | num : ℚ → JVal
  | bool : Bool → JVal
  | null : JVal
  | arr : List JVal → JVal
  | obj : List (String × JVal) → JVal

/-- A command sent over the upstream provider connection. -/
inductive UpstreamCommand where
  | input_audio_buffer_append (audio : JVal)
  | input_audio_buffer_commit
  | response_create
  | response_cancel
  | session_update (session : List (String × JVal))

/-- The `self.session_config` dict initialised in `__init__`. -/
def defaultUpstreamSessionConfig : List (String × JVal) :=
  [("modalities", .arr [.str "text", .str "audio"]),
   ("instructions", .str "You are a helpful AI voice assistant. Please respond naturally and conversationally."),
   ("voice", .str "alloy"),
   ("input_audio_format", .str "pcm16"),
   ("output_audio_format", .str "pcm16"),
   ("input_audio_transcription", .obj [("model", .str "whisper-1")]),
   ("turn_detection", .obj [("type", .str "server_vad"), ("threshold", .num (1/2)),
                            ("prefix_padding_ms", .int 300),
                            ("silence_duration_ms", .int 200)]),
   ("tools", .arr []),
   ("tool_choice", .str "auto"),
   ("temperature", .num (4/5)),
   ("max_response_output_tokens", .int 4096)]

/-- The `RuntimeError` raised by every send path when the upstream
connection is not established; the spec calls it `NotConnectedError`. -/
inductive UpstreamError where
  | notConnected
  deriving DecidableEq

/-- Upstream client state: an optional transport handle and the
`is_connected` flag. -/
structure OpenAIRealtimeClient where
  session_id : String
  websocket : Option Nat := none
  is_connected : Bool := false
  session_config : List (String × JVal) := defaultUpstreamSessionConfig

/-- The spec's `Ready` state: a transport is held and `is_connected` set;
each send guard `if not self.websocket or not self.is_connected` is
exactly its negation. -/
def OpenAIRealtimeClient.ready (c : OpenAIRealtimeClient) : Bool :=
  c.websocket.isSome && c.is_connected

/-- `send_audio`: one `input_audio_buffer.append` command carrying the
caller's audio value. -/
def OpenAIRealtimeClient.send_audio (c : OpenAIRealtimeClient) (audio_base64 : JVal) :
    Except UpstreamError (OpenAIRealtimeClient × List UpstreamCommand) :=
  if c.websocket.isNone || !c.is_connected then .error .notConnected
  else .ok (c, [.input_audio_buffer_append audio_base64])

/-- `commit_audio`: an `input_audio_buffer.commit` immediately followed by
a `response.create`. -/
def OpenAIRealtimeClient.commit_audio (c : OpenAIRealtimeClient) :
    Except UpstreamError (OpenAIRealtimeClient × List UpstreamCommand) :=
  if c.websocket.isNone || !c.is_connected then .error .notConnected
  else .ok (c, [.input_audio_buffer_commit, .response_create])

/-- `interrupt_conversation`: one `response.cancel`. -/
def OpenAIRealtimeClient.interrupt_conversation (c : OpenAIRealtimeClient) :
    Except UpstreamError (OpenAIRealtimeClient × List UpstreamCommand) :=
  if c.websocket.isNone || !c.is_connected then .error .notConnected
  else .ok (c, [.response_cancel])

/-- `update_session`: `self.session_config.update(config)` (a dict merge)
then one `session.update` command carrying the merged config. -/
def OpenAIRealtimeClient.update_session (c : OpenAIRealtimeClient)
    (config : List (String × JVal)) :
    Except UpstreamError (OpenAIRealtimeClient × List UpstreamCommand) :=
  if c.websocket.isNone || !c.is_connected then .error .notConnected
  else
    let merged := config.foldl (fun d kv => dictInsert d kv.1 kv.2) c.session_config
    .ok ({ c with session_config := merged }, [.session_update merged])

/-! ### Client-message processing — `application/websocket_handler.py` -/

/-- The Python `message_type == "<literal>"` test: `data.get("type")`
equals the given string. -/
def jsonEqStr (v : Option JVal) (s : String) : Bool :=
  match v with
  | some (.str t) => t == s
  | _ => false

/-- `process_client_message`: dispatch on `data.get("type")`; the final
branch only logs a warning (flag in the result) and sends nothing.  A
non-dict `config`/`session` payload would fault inside `dict.update`; the
embedding covers the dict-shaped payloads the protocol defines. -/
def process_client_message (data : List (String × JVal))
    (realtime_client : OpenAIRealtimeClient) :
    Except UpstreamError (OpenAIRealtimeClient × List UpstreamCommand × Bool) :=
  let message_type := dictGet data "type"
  if jsonEqStr message_type "audio.append" then
    let audio_data := (dictGet data "audio").getD (.str "")
    match realtime_client.send_audio audio_data with
    | .ok (c, cmds) => .ok (c, cmds, false)
    | .error e => .error e
  else if jsonEqStr message_type "audio.commit" then
    match realtime_client.commit_audio with
    | .ok (c, cmds) => .ok (c, cmds, false)
    | .error e => .error e
  else if jsonEqStr message_type "conversation.interrupt" then
    match realtime_client.interrupt_conversation with
    | .ok (c, cmds) => .ok (c, cmds, false)
    | .error e => .error e
  else if jsonEqStr message_type "session.update" then
    let config := match dictGet data "config" with
      | some (.obj o) => o
      | _ => []
    match realtime_client.update_session config with
    | .ok (c, cmds) => .ok (c, cmds, false)
    | .error e => .error e
  else if jsonEqStr message_type "session.create" then
    let session_config := match dictGet data "session" with
      | some (.obj o) => o
      | _ => []
    if session_config.isEmpty then .ok (realtime_client, [], false)
    else
      match realtime_client.update_session session_config with
      | .ok (c, cmds) => .ok (c, cmds, false)
      | .error e => .error e
  else
    .ok (realtime_client, [], true)

/-- What one iteration of `handle_client_messages` produces for an
already-parsed message: the exception path sends one error message to the
client, the normal path sends none. -/
structure HandleResult where
  client : OpenAIRealtimeClient
  upstream : List UpstreamCommand
  client_errors : List UpstreamError
  warned_unknown : Bool

/-- One message through `handle_client_messages`' body. -/
def handle_client_message (data : List (String × JVal))
    (realtime_client : OpenAIRealtimeClient) : HandleResult :=
  match process_client_message data realtime_client with
  | .ok (c, cmds, warned) =>
      { client := c, upstream := cmds, client_errors := [], warned_unknown := warned }
  | .error e =>
      { client := realtime_client, upstream := [], client_errors := [e],
        warned_unknown := false }

/-- Several client messages in receipt order; upstream commands
concatenate in order. -/
def process_client_messages : List (List (String × JVal)) → OpenAIRealtimeClient →
    Except UpstreamError (OpenAIRealtimeClient × List UpstreamCommand)
  | [], c => .ok (c, [])
  | data :: rest, c =>
      match process_client_message data c with
      | .ok (c', cmds, _) =>
          match process_client_messages rest c' with
          | .ok (c'', cmds') => .ok (c'', cmds ++ cmds')
          | .error e => .error e
      | .error e => .error e

/-! ### Concrete records used by witnesses -/

/-- A concrete session record. -/
def mkSession (sid cid : String) (active : Bool) (last : Int) : ClientSession :=
  { session_id := sid, client_id := cid, websocket := 0, connected_at := 0,
    is_active := active, last_activity := last }

/-- A registry holding one session. -/
def mkRegistry (sid cid : String) (active : Bool) (last : Int) : SessionManagerState :=
  { sessions := [(sid, mkSession sid cid active last)],
    client_to_session := [(cid, sid)] }

/-- An upstream client in the `Ready` state. -/
def readyClient : OpenAIRealtimeClient :=
  { session_id := "sess", websocket := some 0, is_connected := true }

/-- An upstream client that never connected. -/
def unconnectedClient : OpenAIRealtimeClient :=
  { session_id := "sess" }

/-! ### Claim theorems -/

/-- C5: decoding the encoding of any byte buffer through the audio codec
gives back the buffer exactly for the PCM16 format. -/
theorem encode_decode_audio_roundtrip (b : List Nat) (hb : ∀ x ∈ b, x < 256) :
    decode_audio (encode_audio b .pcm16) .pcm16 = b :=
  b64decode_b64encode b hb

theorem encode_decode_audio_roundtrip_witness :
    (∀ x ∈ [72, 105, 33], x < 256) ∧
      decode_audio (encode_audio [72, 105, 33] .pcm16) .pcm16 = [72, 105, 33] :=
  ⟨by decide, encode_decode_audio_roundtrip [72, 105, 33] (by decide)⟩

/-- C2: when the `client_to_session` entry for a client points at a
session that is still active, a second `create` fails with the
duplicate-session error; the returned value carries no successor state,
so the registry, the existing session and the client mapping are
untouched. -/
theorem create_session_duplicate_rejected (m : SessionManagerState)
    (client_id existing_sid new_sid : String) (es : ClientSession)
    (ws : Nat) (cfg : Option SessionConfig) (now : Int)
    (h1 : dictGet m.client_to_session client_id = some existing_sid)
    (h2 : dictGet m.sessions existing_sid = some es)
    (h3 : es.is_active = true) :
    create_session m client_id ws cfg new_sid now =
      .error (.duplicateSession client_id) := by
  simp [create_session, h1, h2, h3]

theorem create_session_duplicate_rejected_witness :
    create_session (mkRegistry "s1" "c1" true 0) "c1" 7 none "s2" 10 =
      .error (.duplicateSession "c1") :=
  create_session_duplicate_rejected (mkRegistry "s1" "c1" true 0) "c1" "s1" "s2"
    (mkSession "s1" "c1" true 0) 7 none 10 (by decide) (by rfl) (by decide)

/-- C7: every upstream send operation fails with `NotConnectedError`
whenever the client is not in the `Ready` state, and in the `Ready` state
sends exactly its command(s). -/
theorem sendCommand_requires_ready (c : OpenAIRealtimeClient) (audio : JVal)
    (config : List (String × JVal)) :
    (c.ready = false →
      c.send_audio audio = .error .notConnected ∧
      c.commit_audio = .error .notConnected ∧
      c.interrupt_conversation = .error .notConnected ∧
      c.update_session config = .error .notConnected) ∧
    (c.ready = true →
      c.send_audio audio = .ok (c, [.input_audio_buffer_append audio]) ∧
      c.commit_audio = .ok (c, [.input_audio_buffer_commit, .response_create]) ∧
      c.interrupt_conversation = .ok (c, [.response_cancel]) ∧
      c.update_session config =
        .ok ({ c with session_config :=
                 config.foldl (fun d kv => dictInsert d kv.1 kv.2) c.session_config },
             [.session_update
                (config.foldl (fun d kv => dictInsert d kv.1 kv.2) c.session_config)])) := by
  rcases c with ⟨sid, ws, conn, scfg⟩
  cases ws <;> cases conn <;>
    simp [OpenAIRealtimeClient.ready, OpenAIRealtimeClient.send_audio,
      OpenAIRealtimeClient.commit_audio, OpenAIRealtimeClient.interrupt_conversation,
      OpenAIRealtimeClient.update_session]

theorem sendCommand_requires_ready_witness :
    unconnectedClient.send_audio (.str "") = .error .notConnected ∧
    readyClient.commit_audio =
      .ok (readyClient, [.input_audio_buffer_commit, .response_create]) :=
  ⟨((sendCommand_requires_ready unconnectedClient (.str "") []).1 (by rfl)).1,
   ((sendCommand_requires_ready readyClient (.str "") []).2 (by rfl)).2.1⟩

/-- C4: processing `audio.append` then `audio.commit` on a ready upstream
connection sends exactly one append command carrying the client's audio,
then one commit command immediately followed by one `response.create`,
in this order with nothing in between. -/
theorem audio_append_commit_ordering (c : OpenAIRealtimeClient) (audio : JVal)
    (h : c.ready = true) :
    process_client_messages
      [[("type", .str "audio.append"), ("audio", audio)],
       [("type", .str "audio.commit")]] c =
      .ok (c, [.input_audio_buffer_append audio,
               .input_audio_buffer_commit, .response_create]) := by
  have h2 : c.is_connected = true := by
    rw [OpenAIRealtimeClient.ready, Bool.and_eq_true] at h
    exact h.2
  have h1 : c.websocket.isNone = false := by
    rw [OpenAIRealtimeClient.ready, Bool.and_eq_true] at h
    rcases hw : c.websocket with _ | w
    · rw [hw] at h; simp at h
    · rfl
  simp [process_client_messages, process_client_message, jsonEqStr, dictGet,
    OpenAIRealtimeClient.send_audio, OpenAIRealtimeClient.commit_audio, h1, h2]

theorem audio_append_commit_ordering_witness :
    process_client_messages
      [[("type", .str "audio.append"), ("audio", .str "UENN")],
       [("type", .str "audio.commit")]] readyClient =
      .ok (readyClient, [.input_audio_buffer_append (.str "UENN"),
                         .input_audio_buffer_commit, .response_create]) :=
  audio_append_commit_ordering readyClient (.str "UENN") (by rfl)

/-- C8: a client message whose `type` is outside the recognized
vocabulary is dropped: the handler only logs a warning — no upstream
command, no raised error, no error message to the client. -/
theorem unknown_type_ignored (data : List (String × JVal))
    (c : OpenAIRealtimeClient)
    (h : ∀ s, dictGet data "type" = some (.str s) →
        s ∉ (["audio.append", "audio.commit", "conversation.interrupt",
              "session.update", "session.create"] : List String)) :
    handle_client_message data c =
      { client := c, upstream := [], client_errors := [], warned_unknown := true } := by
  have hfalse : ∀ lbl ∈ (["audio.append", "audio.commit", "conversation.interrupt",
      "session.update", "session.create"] : List String),
      jsonEqStr (dictGet data "type") lbl = false := by
    intro lbl hlbl
    unfold jsonEqStr
    rcases hd : dictGet data "type" with _ | v
    · rfl
    · cases v <;> try rfl
      rename_i t
      have ht := h t hd
      simp only [beq_eq_false_iff_ne, ne_eq]
      intro he
      exact ht (he ▸ hlbl)
  have ha := hfalse "audio.append" (by simp)
  have hb := hfalse "audio.commit" (by simp)
  have hc := hfalse "conversation.interrupt" (by simp)
  have hd := hfalse "session.update" (by simp)
  have he := hfalse "session.create" (by simp)
  simp [handle_client_message, process_client_message, ha, hb, hc, hd, he]

theorem unknown_type_ignored_witness :
    handle_client_message [("type", .str "telemetry.ping")] readyClient =
      { client := readyClient, upstream := [], client_errors := [],
        warned_unknown := true } :=
  unknown_type_ignored [("type", .str "telemetry.ping")] readyClient
    (by
      intro s hs
      simp [dictGet] at hs
      subst hs
      decide)

/-! ### Lemmas about `setField` and the update fold -/

theorem setField_session_id (s : ClientSession) (f : String) (v : UVal) :
    (setField s f v).session_id = s.session_id := by
  unfold setField
  split
  · split <;> rfl
  · rfl

theorem setField_client_id (s : ClientSession) (f : String) (v : UVal) :
    (setField s f v).client_id = s.client_id := by
  unfold setField
  split
  · split <;> rfl
  · rfl

theorem setField_websocket (s : ClientSession) (f : String) (v : UVal) :
    (setField s f v).websocket = s.websocket := by
  unfold setField
  split
  · split <;> rfl
  · rfl

theorem setField_connected_at (s : ClientSession) (f : String) (v : UVal) :
    (setField s f v).connected_at = s.connected_at := by
  unfold setField
  split
  · split <;> rfl
  · rfl

theorem setField_not_allowed (s : ClientSession) (f : String) (v : UVal)
    (h : f ∉ allowed_fields) : setField s f v = s := by
  unfold setField
  rw [if_neg h]

/-- The kwargs fold never touches the identity and connection fields. -/
theorem foldl_setField_identity (kwargs : List (String × UVal)) (s : ClientSession) :
    (kwargs.foldl (fun s fv => setField s fv.1 fv.2) s).session_id = s.session_id ∧
    (kwargs.foldl (fun s fv => setField s fv.1 fv.2) s).client_id = s.client_id ∧
    (kwargs.foldl (fun s fv => setField s fv.1 fv.2) s).websocket = s.websocket ∧
    (kwargs.foldl (fun s fv => setField s fv.1 fv.2) s).connected_at = s.connected_at := by
  induction kwargs generalizing s with
  | nil => exact ⟨rfl, rfl, rfl, rfl⟩
  | cons fv rest ih =>
      simp only [List.foldl_cons]
      obtain ⟨i1, i2, i3, i4⟩ := ih (setField s fv.1 fv.2)
      exact ⟨i1.trans (setField_session_id s fv.1 fv.2),
             i2.trans (setField_client_id s fv.1 fv.2),
             i3.trans (setField_websocket s fv.1 fv.2),
             i4.trans (setField_connected_at s fv.1 fv.2)⟩

/-- Kwargs made only of unknown field names leave the session untouched. -/
theorem foldl_setField_unknown (kwargs : List (String × UVal)) (s : ClientSession)
    (h : ∀ fv ∈ kwargs, fv.1 ∉ allowed_fields) :
    kwargs.foldl (fun s fv => setField s fv.1 fv.2) s = s := by
  induction kwargs generalizing s with
  | nil => rfl
  | cons fv rest ih =>
      rw [List.foldl_cons, setField_not_allowed _ _ _ (h fv (by simp))]
      exact ih s (fun fv' hm => h fv' (by simp [hm]))

/-- C1 counterexample: a session whose config carries
`instructions = "Respond in French."`; updating with a partial config that
only sets `voice = "echo"` erases `instructions` (it falls back to the
`SessionConfig` default `None`), so the update is not a shallow merge. -/
theorem config_update_not_merge_counterexample :
    (get_session
        (update_session
          { sessions := [("s1",
              { session_id := "s1", client_id := "c1", websocket := 0,
                connected_at := 0,
                config := { instructions := some "Respond in French." },
                last_activity := 0 })],
            client_to_session := [("c1", "s1")] }
          "s1" [("config", .vConfig { voice := "echo" })] 5).1 "s1").map
      (fun s => (s.config.voice, s.config.instructions)) =
      some ("echo", none) := by
  rfl

/-- C1 (amended): the registry's `update` with a `config` field replaces
the stored config wholesale — `get(sessionId).config` afterwards is
exactly the supplied config, and previously-set fields not carried by it
are lost (only the upstream client's session-config update merges). -/
theorem config_update_replaces (m : SessionManagerState) (session_id : String)
    (s : ClientSession) (c : SessionConfig) (now : Int)
    (h : dictGet m.sessions session_id = some s) :
    get_session (update_session m session_id [("config", .vConfig c)] now).1
        session_id =
      some { s with config := c, last_activity := now } := by
  simp only [update_session, h, List.foldl_cons, List.foldl_nil, List.any_cons,
    List.any_nil]
  have hset : setField s "config" (.vConfig c) = { s with config := c } := rfl
  rw [hset]
  simp [get_session, dictGet_dictInsert]

theorem config_update_replaces_witness :
    get_session
        (update_session (mkRegistry "s1" "c1" true 0) "s1"
          [("config", .vConfig { voice := "echo" })] 5).1 "s1" =
      some { mkSession "s1" "c1" true 0 with
              config := { voice := "echo" }, last_activity := 5 } :=
  config_update_replaces (mkRegistry "s1" "c1" true 0) "s1"
    (mkSession "s1" "c1" true 0) { voice := "echo" } 5 (by rfl)

/-- C6: `update` returns `false` on an absent session and leaves the
registry unchanged; on a present session it returns `true`, assigns only
allow-listed fields (identity and connection fields are framed, kwargs
made only of unknown names are ignored), refreshes `last_activity` to the
current time unless the caller supplied it, and leaves every other
session untouched. -/
theorem update_session_spec (m : SessionManagerState) (session_id : String)
    (kwargs : List (String × UVal)) (now : Int) :
    (dictGet m.sessions session_id = none →
      update_session m session_id kwargs now = (m, false)) ∧
    (∀ s, dictGet m.sessions session_id = some s →
      (update_session m session_id kwargs now).2 = true ∧
      ∃ s', get_session (update_session m session_id kwargs now).1 session_id =
              some s' ∧
        s'.session_id = s.session_id ∧ s'.client_id = s.client_id ∧
        s'.websocket = s.websocket ∧ s'.connected_at = s.connected_at ∧
        (kwargs.any (fun fv => fv.1 == "last_activity") = false →
          s'.last_activity = now) ∧
        ((∀ fv ∈ kwargs, fv.1 ∉ allowed_fields) →
          s' = { s with last_activity := now }) ∧
        (∀ sid', sid' ≠ session_id →
          dictGet (update_session m session_id kwargs now).1.sessions sid' =
            dictGet m.sessions sid')) := by
  constructor
  · intro h
    simp [update_session, h]
  · intro s h
    simp only [update_session, h]
    refine ⟨by simp, ?_⟩
    obtain ⟨i1, i2, i3, i4⟩ := foldl_setField_identity kwargs s
    by_cases hany : kwargs.any (fun fv => fv.1 == "last_activity") = true
    · rw [if_pos hany]
      refine ⟨kwargs.foldl (fun s fv => setField s fv.1 fv.2) s,
        by simp [get_session, dictGet_dictInsert], i1, i2, i3, i4, ?_, ?_, ?_⟩
      · intro hfalse
        rw [hany] at hfalse
        cases hfalse
      · intro hunk
        exfalso
        obtain ⟨fv, hmem, hbeq⟩ := List.any_eq_true.mp hany
        have : fv.1 = "last_activity" := by
          exact eq_of_beq hbeq
        exact hunk fv hmem (by rw [this]; simp [allowed_fields])
      · intro sid' hne
        have hne' : ¬(session_id = sid') := fun h' => hne h'.symm
        simp [dictGet_dictInsert, hne']
    · rw [if_neg hany]
      have hany' : kwargs.any (fun fv => fv.1 == "last_activity") = false :=
        Bool.not_eq_true _ ▸ Bool.eq_false_iff.mpr hany
      refine ⟨{ kwargs.foldl (fun s fv => setField s fv.1 fv.2) s with
                  last_activity := now },
        by simp [get_session, dictGet_dictInsert], i1, i2, i3, i4,
        fun _ => rfl, ?_, ?_⟩
      · intro hunk
        rw [foldl_setField_unknown kwargs s hunk]
      · intro sid' hne
        have hne' : ¬(session_id = sid') := fun h' => hne h'.symm
        simp [dictGet_dictInsert, hne']

theorem update_session_spec_witness :
    (update_session (mkRegistry "s1" "c1" true 0) "s1" [("bogus", .vBool true)] 9).2 =
      true :=
  ((update_session_spec (mkRegistry "s1" "c1" true 0) "s1" [("bogus", .vBool true)]
      9).2 (mkSession "s1" "c1" true 0) (by rfl)).1

/-! ### Lemmas about the removal loop and the updating operations -/

theorem remove_session_snd (m : SessionManagerState) (sid : String)
    (s : ClientSession) (h : dictGet m.sessions sid = some s) :
    (remove_session m sid).2 = true := by
  unfold remove_session
  rw [h]

theorem remove_session_sessions (m : SessionManagerState) (sid : String)
    (s : ClientSession) (h : dictGet m.sessions sid = some s) :
    (remove_session m sid).1.sessions = dictErase m.sessions sid := by
  unfold remove_session
  rw [h]

theorem remove_session_c2s (m : SessionManagerState) (sid : String)
    (s : ClientSession) (h : dictGet m.sessions sid = some s) :
    (remove_session m sid).1.client_to_session =
      if dictHasKey m.client_to_session s.client_id then
        dictErase m.client_to_session s.client_id
      else m.client_to_session := by
  unfold remove_session
  rw [h]

theorem get_session_by_client_id_eq (m : SessionManagerState) (cid sid : String)
    (h : dictGet m.client_to_session cid = some sid) :
    get_session_by_client_id m cid = get_session m sid := by
  unfold get_session_by_client_id
  rw [h]

theorem remove_fold_lookup_some (K : List String) (p : SessionManagerState × Nat)
    (sid : String) (s' : ClientSession)
    (h : dictGet (K.foldl remove_step p).1.sessions sid = some s') :
    dictGet p.1.sessions sid = some s' := by
  induction K generalizing p with
  | nil => exact h
  | cons k rest ih =>
      rw [List.foldl_cons] at h
      have h1 := ih (remove_step p k) h
      rcases hsk : dictGet p.1.sessions k with _ | sk
      · simpa [remove_step, remove_session, hsk] using h1
      · have h2 : (remove_step p k).1.sessions = dictErase p.1.sessions k := by
          simp [remove_step, remove_session, hsk]
        rw [h2, dictGet_dictErase] at h1
        by_cases hk : k = sid
        · rw [if_pos hk] at h1; cases h1
        · rwa [if_neg hk] at h1

/-- One update through `update_session` can change only allow-listed
fields of the session stored under any key. -/
theorem update_session_lookup (m : SessionManagerState) (sid0 : String)
    (kwargs : List (String × UVal)) (now : Int) (sid : String) (s' : ClientSession)
    (h : dictGet (update_session m sid0 kwargs now).1.sessions sid = some s') :
    ∃ s, dictGet m.sessions sid = some s ∧
      s'.session_id = s.session_id ∧ s'.client_id = s.client_id := by
  rcases h0 : dictGet m.sessions sid0 with _ | s0
  · simp only [update_session, h0] at h
    exact ⟨s', h, rfl, rfl⟩
  · simp only [update_session, h0] at h
    rw [dictGet_dictInsert] at h
    by_cases he : sid0 = sid
    · subst he
      rw [if_pos rfl] at h
      obtain ⟨i1, i2, _, _⟩ := foldl_setField_identity kwargs s0
      refine ⟨s0, h0, ?_, ?_⟩ <;>
        (cases hany : kwargs.any (fun fv => fv.1 == "last_activity") <;>
          rw [hany] at h <;> simp only [Bool.false_eq_true, if_false, if_true] at h <;>
          injection h with h <;> subst h)
      · exact i1
      · exact i1
      · exact i2
      · exact i2
    · rw [if_neg he] at h
      exact ⟨s', h, rfl, rfl⟩

/-- `deactivate_session` can change only `is_active` of the session stored
under any key. -/
theorem deactivate_session_lookup (m : SessionManagerState) (sid0 sid : String)
    (s' : ClientSession)
    (h : dictGet (deactivate_session m sid0).1.sessions sid = some s') :
    ∃ s, dictGet m.sessions sid = some s ∧
      s'.session_id = s.session_id ∧ s'.client_id = s.client_id := by
  rcases h0 : dictGet m.sessions sid0 with _ | s0
  · simp only [deactivate_session, h0] at h
    exact ⟨s', h, rfl, rfl⟩
  · simp only [deactivate_session, h0] at h
    rw [dictGet_dictInsert] at h
    by_cases he : sid0 = sid
    · subst he
      rw [if_pos rfl] at h
      injection h with h
      subst h
      exact ⟨s0, h0, rfl, rfl⟩
    · rw [if_neg he] at h
      exact ⟨s', h, rfl, rfl⟩

/-- C9: no registry operation after creation ever changes a stored
session's `session_id` or `client_id`: whatever `get` finds after the
operation was already stored under that key with the same identity
fields. -/
theorem session_identity_immutable (m : SessionManagerState) (op : RegistryOp)
    (sid : String) (s' : ClientSession)
    (h : dictGet (applyRegistryOp m op).sessions sid = some s') :
    ∃ s, dictGet m.sessions sid = some s ∧
      s'.session_id = s.session_id ∧ s'.client_id = s.client_id := by
  cases op with
  | get _ => exact ⟨s', h, rfl, rfl⟩
  | getByClient _ => exact ⟨s', h, rfl, rfl⟩
  | touch sid0 now =>
      exact update_session_lookup m sid0 [("last_activity", .vTime now)] now sid s' h
  | update sid0 kwargs now => exact update_session_lookup m sid0 kwargs now sid s' h
  | deactivate sid0 => exact deactivate_session_lookup m sid0 sid s' h
  | sweep now =>
      simp only [applyRegistryOp, cleanup_inactive_sessions] at h
      exact ⟨s', remove_fold_lookup_some _ _ _ _ h, rfl, rfl⟩

theorem session_identity_immutable_witness :
    ∃ s, dictGet (mkRegistry "s1" "c1" true 0).sessions "s1" = some s ∧
      (mkSession "s1" "c1" false 0).session_id = s.session_id ∧
      (mkSession "s1" "c1" false 0).client_id = s.client_id :=
  session_identity_immutable (mkRegistry "s1" "c1" true 0) (.deactivate "s1") "s1"
    (mkSession "s1" "c1" false 0) (by rfl)

/-- C10: `create` for a client whose mapped session is inactive succeeds,
stores a fresh session under the new id and repoints the client mapping
at it, while the old inactive record stays stored (still found by `get`,
no longer by `getByClient`); removing the old session afterwards deletes
the client mapping even though it points at the newer session. -/
theorem create_after_inactive (m : SessionManagerState)
    (client_id sid0 new_sid : String) (s0 : ClientSession) (ws : Nat)
    (cfg : Option SessionConfig) (now : Int)
    (h1 : dictGet m.client_to_session client_id = some sid0)
    (h2 : dictGet m.sessions sid0 = some s0)
    (h3 : s0.is_active = false)
    (h4 : dictGet m.sessions new_sid = none)
    (h5 : s0.client_id = client_id) :
    ∃ m' snew, create_session m client_id ws cfg new_sid now = .ok (m', snew) ∧
      snew.session_id = new_sid ∧ snew.client_id = client_id ∧
      get_session m' new_sid = some snew ∧
      get_session m' sid0 = some s0 ∧
      dictGet m'.client_to_session client_id = some new_sid ∧
      get_session_by_client_id m' client_id = some snew ∧
      (remove_session m' sid0).2 = true ∧
      dictGet (remove_session m' sid0).1.client_to_session client_id = none ∧
      get_session (remove_session m' sid0).1 new_sid = some snew := by
  have hne : sid0 ≠ new_sid := by
    intro he
    rw [he, h4] at h2
    cases h2
  simp only [create_session, h1, h2, h3, Bool.false_eq_true, if_false]
  refine ⟨_, _, rfl, rfl, rfl, ?_, ?_, ?_, ?_, ?_, ?_, ?_⟩
  · rw [get_session, dictGet_dictInsert, if_pos rfl]
  · rw [get_session, dictGet_dictInsert, if_neg (fun he => hne he.symm)]
    exact h2
  · rw [dictGet_dictInsert, if_pos rfl]
  · rw [get_session_by_client_id_eq _ client_id new_sid
        (by rw [dictGet_dictInsert, if_pos rfl])]
    rw [get_session, dictGet_dictInsert, if_pos rfl]
  · apply remove_session_snd
    rw [dictGet_dictInsert, if_neg (fun he => hne he.symm)]
    exact h2
  · rw [remove_session_c2s _ _ s0
        (by rw [dictGet_dictInsert, if_neg (fun he => hne he.symm)]; exact h2)]
    have hhas : dictHasKey (dictInsert m.client_to_session client_id new_sid)
        client_id = true := by
      rw [dictHasKey, dictGet_dictInsert, if_pos rfl]
      rfl
    rw [h5, hhas, if_pos rfl, dictGet_dictErase, if_pos rfl]
  · rw [get_session, remove_session_sessions _ _ s0
        (by rw [dictGet_dictInsert, if_neg (fun he => hne he.symm)]; exact h2)]
    rw [dictGet_dictErase, if_neg hne, dictGet_dictInsert, if_pos rfl]

theorem create_after_inactive_witness :
    ∃ m' snew,
      create_session (mkRegistry "s1" "c1" false 0) "c1" 3 none "s2" 50 =
        .ok (m', snew) ∧
      snew.session_id = "s2" ∧ snew.client_id = "c1" ∧
      get_session m' "s2" = some snew ∧
      get_session m' "s1" = some (mkSession "s1" "c1" false 0) ∧
      dictGet m'.client_to_session "c1" = some "s2" ∧
      get_session_by_client_id m' "c1" = some snew ∧
      (remove_session m' "s1").2 = true ∧
      dictGet (remove_session m' "s1").1.client_to_session "c1" = none ∧
      get_session (remove_session m' "s1").1 "s2" = some snew :=
  create_after_inactive (mkRegistry "s1" "c1" false 0) "c1" "s1" "s2"
    (mkSession "s1" "c1" false 0) 3 none 50 (by decide) (by rfl) (by rfl)
    (by decide) (by rfl)

/-! ### Lemmas for the sweep theorem -/

theorem dictGet_eq_none_iff {α : Type} (l : List (String × α)) (k : String) :
    dictGet l k = none ↔ k ∉ l.map Prod.fst := by
  induction l with
  | nil => simp
  | cons hd tl ih =>
      obtain ⟨k', v⟩ := hd
      by_cases h : k' = k
      · subst h
        simp
      · have hne : ¬k = k' := fun he => h he.symm
        simp [dictGet_cons, h, ih, hne]

theorem mem_of_dictGet {α : Type} (l : List (String × α)) (k : String) (v : α)
    (h : dictGet l k = some v) : (k, v) ∈ l := by
  induction l with
  | nil => cases h
  | cons hd tl ih =>
      obtain ⟨k', w⟩ := hd
      rw [dictGet_cons] at h
      by_cases hk : k' = k
      · rw [if_pos hk] at h
        injection h with h
        subst hk h
        exact List.mem_cons_self _ _
      · rw [if_neg hk] at h
        exact List.mem_cons_of_mem _ (ih h)

theorem dictGet_of_mem_nodup {α : Type} (l : List (String × α))
    (hnd : (l.map Prod.fst).Nodup) (k : String) (v : α) (h : (k, v) ∈ l) :
    dictGet l k = some v := by
  induction l with
  | nil => cases h
  | cons hd tl ih =>
      obtain ⟨k', w⟩ := hd
      rw [List.map_cons, List.nodup_cons] at hnd
      rcases List.mem_cons.mp h with heq | hmem
      · cases heq
        rw [dictGet_cons, if_pos rfl]
      · have hk : k' ≠ k := by
          intro he
          apply hnd.1
          rw [he]
          exact List.mem_map.mpr ⟨(k, v), hmem, rfl⟩
        rw [dictGet_cons, if_neg hk]
        exact ih hnd.2 hmem

/-- The removal loop over a duplicate-free list of present keys removes
exactly those keys and counts every removal. -/
theorem remove_fold_spec (K : List String) (p : SessionManagerState × Nat)
    (hK : ∀ k ∈ K, (dictGet p.1.sessions k).isSome = true)
    (hnd : K.Nodup) :
    (K.foldl remove_step p).2 = p.2 + K.length ∧
    ∀ sid, dictGet (K.foldl remove_step p).1.sessions sid =
      if sid ∈ K then none else dictGet p.1.sessions sid := by
  induction K generalizing p with
  | nil => simp
  | cons k rest ih =>
      rw [List.foldl_cons]
      obtain ⟨sk, hsk⟩ := Option.isSome_iff_exists.mp (hK k (by simp))
      have hsess : (remove_step p k).1.sessions = dictErase p.1.sessions k := by
        simp [remove_step, remove_session, hsk]
      have hcnt : (remove_step p k).2 = p.2 + 1 := by
        simp [remove_step, remove_session, hsk]
      have hknotin : k ∉ rest := (List.nodup_cons.mp hnd).1
      have hndr : rest.Nodup := (List.nodup_cons.mp hnd).2
      have hK' : ∀ k' ∈ rest, (dictGet (remove_step p k).1.sessions k').isSome = true := by
        intro k' hk'
        rw [hsess, dictGet_dictErase,
          if_neg (fun he => hknotin (by rw [he]; exact hk'))]
        exact hK k' (by simp [hk'])
      obtain ⟨ihc, ihl⟩ := ih (remove_step p k) hK' hndr
      constructor
      · rw [ihc, hcnt, List.length_cons]
        omega
      · intro sid
        rw [ihl sid, hsess, dictGet_dictErase]
        by_cases hmem : sid ∈ rest
        · simp [hmem]
        · by_cases heq : k = sid
          · subst heq
            simp [hknotin]
          · have hne : ¬sid = k := fun he => heq he.symm
            simp [hmem, heq, hne]

/-- The boolean removal test, spelled as the spec's two cases. -/
theorem session_expired_iff (m : SessionManagerState) (now : Int) (s : ClientSession) :
    session_expired m now s = true ↔
      ((s.is_active = false ∧ now - s.last_activity > m.cleanup_interval) ∨
       (s.is_active = true ∧ now - s.last_activity > m.session_timeout)) := by
  cases ha : s.is_active <;> simp [session_expired, ha]

/-- C3: a sweep removes a stored session exactly when it is inactive and
strictly older than the cleanup interval, or active and strictly older
than the session timeout; any other session survives unchanged, and the
returned count is the number of sessions removed. -/
theorem sweep_removes_iff (m : SessionManagerState) (now : Int)
    (hnd : (m.sessions.map Prod.fst).Nodup) :
    (∀ sid s, dictGet m.sessions sid = some s →
      get_session (cleanup_inactive_sessions m now).1 sid =
        (if (s.is_active = false ∧ now - s.last_activity > m.cleanup_interval) ∨
            (s.is_active = true ∧ now - s.last_activity > m.session_timeout)
         then none else some s)) ∧
    (cleanup_inactive_sessions m now).2 =
      (m.sessions.filter (fun p => session_expired m now p.2)).length := by
  have hK : ∀ k ∈ (m.sessions.filter (fun p => session_expired m now p.2)).map
      Prod.fst, (dictGet m.sessions k).isSome = true := by
    intro k hk
    obtain ⟨q, hq, hq1⟩ := List.mem_map.mp hk
    have hqm : q ∈ m.sessions := (List.mem_filter.mp hq).1
    rw [← hq1, dictGet_of_mem_nodup m.sessions hnd q.1 q.2 hqm]
    rfl
  have hndK : ((m.sessions.filter (fun p => session_expired m now p.2)).map
      Prod.fst).Nodup :=
    hnd.sublist ((List.filter_sublist _).map _)
  obtain ⟨hcnt, hlook⟩ := remove_fold_spec _ (m, 0) hK hndK
  constructor
  · intro sid s hs
    rw [get_session, cleanup_inactive_sessions, hlook sid]
    have hmemiff : sid ∈ (m.sessions.filter
        (fun p => session_expired m now p.2)).map Prod.fst ↔
        session_expired m now s = true := by
      constructor
      · intro hmem
        obtain ⟨q, hq, hq1⟩ := List.mem_map.mp hmem
        have hqm : q ∈ m.sessions := (List.mem_filter.mp hq).1
        have hexp : session_expired m now q.2 = true := (List.mem_filter.mp hq).2
        have hget : dictGet m.sessions q.1 = some q.2 :=
          dictGet_of_mem_nodup m.sessions hnd q.1 q.2 hqm
        rw [hq1, hs] at hget
        injection hget with hv
        rw [hv]
        exact hexp
      · intro hexp
        exact List.mem_map.mpr
          ⟨(sid, s), List.mem_filter.mpr ⟨mem_of_dictGet _ _ _ hs, hexp⟩, rfl⟩
    by_cases hcond : session_expired m now s = true
    · rw [if_pos (hmemiff.mpr hcond), if_pos ((session_expired_iff m now s).mp hcond)]
    · rw [if_neg (fun hm => hcond (hmemiff.mp hm)),
        if_neg (fun hc => hcond ((session_expired_iff m now s).mpr hc)), hs]
  · rw [cleanup_inactive_sessions, hcnt, List.length_map]
    omega

theorem sweep_removes_iff_witness :
    get_session
        (cleanup_inactive_sessions (mkRegistry "s1" "c1" false 0) 100).1 "s1" =
      none ∧
    (cleanup_inactive_sessions (mkRegistry "s1" "c1" false 0) 100).2 = 1 := by
  have h := sweep_removes_iff (mkRegistry "s1" "c1" false 0) 100 (by decide)
  constructor
  · have h1 := h.1 "s1" (mkSession "s1" "c1" false 0) (by rfl)
    rw [h1, if_pos]
    exact Or.inl ⟨rfl, by decide⟩
  · rw [h.2]
    rfl

end Realtime
